import Mathlib

/-!
# KFtpd: verification of the control-protocol engine and storage backends

Shallow embedding of the `kftpd` FTP server (Go). Pure computations
(path resolution, argument parsing, reply encoding) are translated directly;
stateful handlers become explicit state-passing functions over a `Sess` record
mirroring the `FtpConn` struct; the storage driver and network are abstracted
as oracle parameters (`Option`/`Except`-valued lookup functions and success
flags), matching the fallible Go calls they stand for.
-/

set_option autoImplicit false

namespace KFtpd

/-- A control-channel output: `Send code text` writes a single reply line,
`SendMulti code header body footer` writes a multi-line reply block. -/
inductive Out where
  | line (code : Nat) (text : String)
  | multi (code : Nat) (header body footer : String)
deriving DecidableEq, Repr

/-! ## Path cleaning: Go `path/filepath.Clean` (POSIX rules)

`FtpConn.buildPath` resolves every client-supplied path through
`filepath.Clean` and `filepath.Join`. We embed `Clean` over `List Char`:
split on `/`, process the segments with a stack (dropping empty and `.`
segments, resolving `..`), and re-join. This is the segment-level semantics of
Go's lazybuf algorithm. -/

/-- `strings.Split(s, "/")` over character lists: split on every `/`. -/
def splitSlash : List Char → List (List Char)
  | [] => [[]]
  | c :: cs =>
    if c = '/' then [] :: splitSlash cs
    else (c :: (splitSlash cs).headI) :: (splitSlash cs).tail

/-- Join path segments with `/` separators (inverse of `splitSlash`). -/
def joinSlash : List (List Char) → List Char
  | [] => []
  | [s] => s
  | s :: ss => s ++ '/' :: joinSlash ss

/-- One step of `Clean`'s segment processing. `acc` is the output stack
(most recent segment first). Empty and `.` segments are dropped; `..` pops a
segment when possible, disappears at the root when `rooted`, and is kept
literally otherwise. -/
def cleanPush (rooted : Bool) (acc : List (List Char)) (seg : List Char) :
    List (List Char) :=
  if seg = [] ∨ seg = ['.'] then acc
  else if seg = ['.', '.'] then
    match acc with
    | [] => if rooted then [] else [['.', '.']]
    | a :: rest => if a = ['.', '.'] then ['.', '.'] :: a :: rest else rest
  else seg :: acc

/-- Go `filepath.Clean` on POSIX, over character lists. A rooted result is
`/` followed by the cleaned segments; an unrooted path cleaning to nothing
becomes `.`. -/
def cleanChars (p : List Char) : List Char :=
  if p.head? = some '/' then
    '/' :: joinSlash (((splitSlash p).foldl (cleanPush true) []).reverse)
  else
    let body := joinSlash (((splitSlash p).foldl (cleanPush false) []).reverse)
    if body = [] then ['.'] else body

/-- Go `filepath.Clean`. -/
def filepathClean (s : String) : String := String.mk (cleanChars s.data)

/-- Go `filepath.Join(a, b)`: join the non-empty arguments with `/`, then
clean; all-empty input yields the empty string uncleaned. -/
def filepathJoin (a b : String) : String :=
  if a.data = [] ∧ b.data = [] then ""
  else if a.data = [] then filepathClean b
  else if b.data = [] then filepathClean a
  else filepathClean (String.mk (a.data ++ '/' :: b.data))

/-- `FtpConn.buildPath`: an argument starting with `/` is cleaned as-is,
otherwise it is joined onto the session's current path and cleaned. -/
def buildPath (curPath arg : String) : String :=
  if arg.data.head? = some '/' then filepathClean arg
  else filepathClean (filepathJoin curPath arg)

/-! ### Lemmas: rooted paths clean to rooted canonical paths -/

theorem splitSlash_ne_nil : ∀ cs : List Char, splitSlash cs ≠ []
  | [] => by simp [splitSlash]
  | c :: cs => by
    unfold splitSlash
    split <;> simp

/-- Segments produced by `splitSlash` never contain `/`. -/
theorem splitSlash_no_slash : ∀ cs : List Char, ∀ s ∈ splitSlash cs, '/' ∉ s := by
  intro cs
  induction cs with
  | nil => intro s hs; simp [splitSlash] at hs; simp [hs]
  | cons c cs ih =>
    intro s hs
    unfold splitSlash at hs
    by_cases hc : c = '/'
    · simp [hc] at hs
      rcases hs with rfl | hs
      · simp
      · exact ih s hs
    · simp [hc] at hs
      rcases hs with rfl | hs
      · intro hmem
        rcases List.mem_cons.mp hmem with rfl | hmem
        · exact hc rfl
        · cases h : splitSlash cs with
          | nil => exact splitSlash_ne_nil cs h
          | cons a t =>
            apply ih a (by simp [h])
            rwa [h, List.headI_cons] at hmem
      · cases h : splitSlash cs with
        | nil => exact absurd h (splitSlash_ne_nil cs)
        | cons a t =>
          rw [h, List.tail_cons] at hs
          exact ih s (by simp [h, hs])

/-- A segment that survives cleaning of a rooted path: non-empty,
not `.`, not `..`, and slash-free. -/
def GoodSeg (s : List Char) : Prop :=
  s ≠ [] ∧ s ≠ ['.'] ∧ s ≠ ['.', '.'] ∧ '/' ∉ s

instance : DecidablePred GoodSeg := fun s => by
  unfold GoodSeg; infer_instance

/-- In rooted mode the clean stack only ever holds good segments. -/
theorem foldl_cleanPush_good :
    ∀ (l : List (List Char)) (acc : List (List Char)),
      (∀ s ∈ acc, GoodSeg s) → (∀ s ∈ l, '/' ∉ s) →
      ∀ s ∈ l.foldl (cleanPush true) acc, GoodSeg s := by
  intro l
  induction l with
  | nil => intro acc hacc _ s hs; exact hacc s hs
  | cons seg l ih =>
    intro acc hacc hl s hs
    rw [List.foldl_cons] at hs
    refine ih (cleanPush true acc seg) ?_ (fun t ht => hl t (List.mem_cons_of_mem _ ht)) s hs
    intro t ht
    unfold cleanPush at ht
    by_cases h1 : seg = [] ∨ seg = ['.']
    · simp only [if_pos h1] at ht; exact hacc t ht
    · simp only [if_neg h1] at ht
      by_cases h2 : seg = ['.', '.']
      · simp only [if_pos h2] at ht
        cases hacc' : acc with
        | nil => rw [hacc'] at ht; simp at ht
        | cons a rest =>
          rw [hacc'] at ht
          have ha : GoodSeg a := hacc a (by simp [hacc'])
          simp only [if_neg ha.2.2.1] at ht
          exact hacc t (by simp [hacc', ht])
      · simp only [if_neg h2] at ht
        rcases List.mem_cons.mp ht with rfl | ht
        · refine ⟨?_, ?_, h2, hl t (List.mem_cons_self _ _)⟩
          · intro h; exact h1 (Or.inl h)
          · intro h; exact h1 (Or.inr h)
        · exact hacc t ht

/-- Folding good segments in rooted mode just stacks them. -/
theorem foldl_cleanPush_of_good :
    ∀ (l : List (List Char)) (acc : List (List Char)),
      (∀ s ∈ l, GoodSeg s) →
      l.foldl (cleanPush true) acc = l.reverse ++ acc := by
  intro l
  induction l with
  | nil => intro acc _; simp
  | cons seg l ih =>
    intro acc hl
    have hg : GoodSeg seg := hl seg (List.mem_cons_self _ _)
    have hstep : cleanPush true acc seg = seg :: acc := by
      unfold cleanPush
      rw [if_neg, if_neg hg.2.2.1]
      intro h; rcases h with h | h
      · exact hg.1 h
      · exact hg.2.1 h
    rw [List.foldl_cons, hstep, ih (seg :: acc) (fun t ht => hl t (List.mem_cons_of_mem _ ht))]
    simp

/-- Splitting after prepending a slash-free block extends the first segment. -/
theorem splitSlash_append_noslash :
    ∀ (s cs : List Char), '/' ∉ s → ∀ a t, splitSlash cs = a :: t →
      splitSlash (s ++ cs) = (s ++ a) :: t := by
  intro s
  induction s with
  | nil => intro cs _ a t h; simpa using h
  | cons c s ih =>
    intro cs hns a t h
    have hc : ¬ c = '/' := by
      intro hc; exact hns (by simp [hc])
    have hs : '/' ∉ s := fun hmem => hns (List.mem_cons_of_mem _ hmem)
    have := ih cs hs a t h
    unfold splitSlash
    rw [List.cons_append]
    simp only [if_neg hc]
    rw [this]
    simp

/-- Splitting inverts joining for non-empty lists of slash-free segments. -/
theorem splitSlash_joinSlash :
    ∀ (l : List (List Char)), l ≠ [] → (∀ s ∈ l, '/' ∉ s) →
      splitSlash (joinSlash l) = l := by
  intro l
  induction l with
  | nil => intro h; exact absurd rfl h
  | cons s l ih =>
    intro _ hl
    cases l with
    | nil =>
      show splitSlash (joinSlash [s]) = [s]
      have : joinSlash [s] = s := rfl
      rw [this]
      have := splitSlash_append_noslash s [] (hl s (List.mem_cons_self _ _)) [] []
        (by simp [splitSlash])
      simpa using this
    | cons s' l' =>
      have hjoin : joinSlash (s :: s' :: l') = s ++ '/' :: joinSlash (s' :: l') := rfl
      rw [hjoin]
      have hrec : splitSlash (joinSlash (s' :: l')) = s' :: l' :=
        ih (by simp) (fun t ht => hl t (List.mem_cons_of_mem _ ht))
      have hslash : splitSlash ('/' :: joinSlash (s' :: l')) = [] :: s' :: l' := by
        unfold splitSlash; rw [if_pos rfl, hrec]
      have := splitSlash_append_noslash s ('/' :: joinSlash (s' :: l'))
        (hl s (List.mem_cons_self _ _)) [] (s' :: l') hslash
      rw [this]; simp

/-- The clean of a rooted path starts with `/`. -/
theorem cleanChars_rooted (cs : List Char) :
    cleanChars ('/' :: cs) =
      '/' :: joinSlash (((splitSlash ('/' :: cs)).foldl (cleanPush true) []).reverse) := by
  unfold cleanChars
  rw [if_pos (show ('/' :: cs).head? = some '/' from rfl)]

/-- Cleaning a rooted path is idempotent. -/
theorem cleanChars_idem_rooted (cs : List Char) :
    cleanChars (cleanChars ('/' :: cs)) = cleanChars ('/' :: cs) := by
  rw [cleanChars_rooted]
  set stack := (splitSlash ('/' :: cs)).foldl (cleanPush true) [] with hstack
  have hgood : ∀ s ∈ stack, GoodSeg s := by
    rw [hstack]
    exact foldl_cleanPush_good _ [] (by intro s hs; simp at hs)
      (splitSlash_no_slash ('/' :: cs))
  have hgoodrev : ∀ s ∈ stack.reverse, GoodSeg s := by
    intro s hs; exact hgood s (List.mem_reverse.mp hs)
  rw [cleanChars_rooted]
  cases hrev : stack.reverse with
  | nil => rfl
  | cons a t =>
    rw [hrev] at hgoodrev
    have hne : (a :: t : List (List Char)) ≠ [] := by simp
    have hnoslash : ∀ s ∈ a :: t, '/' ∉ s := fun s hs => (hgoodrev s hs).2.2.2
    have hsplit1 : splitSlash ('/' :: joinSlash (a :: t)) = [] :: a :: t := by
      unfold splitSlash
      rw [if_pos rfl, splitSlash_joinSlash _ hne hnoslash]
    rw [hsplit1]
    have hfold : ([] :: a :: t : List (List Char)).foldl (cleanPush true) [] =
        (a :: t).reverse := by
      rw [List.foldl_cons]
      have h0 : cleanPush true [] [] = [] := by simp [cleanPush]
      rw [h0, foldl_cleanPush_of_good _ [] hgoodrev]
      simp
    rw [hfold, List.reverse_reverse]

/-- A rooted path cleans to a rooted path (`List Char` level). -/
theorem cleanChars_head_rooted (cs : List Char) :
    (cleanChars ('/' :: cs)).head? = some '/' := by
  rw [cleanChars_rooted]; rfl

/-- A rooted string cleans to a rooted string. -/
theorem filepathClean_rooted_head (s : String) (h : s.data.head? = some '/') :
    (filepathClean s).data.head? = some '/' := by
  obtain ⟨cs⟩ := s
  cases cs with
  | nil => simp at h
  | cons c cs =>
    simp only [Option.some.injEq] at h
    have hc : c = '/' := by simpa using h
    subst hc
    show (cleanChars ('/' :: cs)).head? = some '/'
    exact cleanChars_head_rooted cs

/-- Cleaning a rooted string is idempotent. -/
theorem filepathClean_idem_rooted (s : String) (h : s.data.head? = some '/') :
    filepathClean (filepathClean s) = filepathClean s := by
  obtain ⟨cs⟩ := s
  cases cs with
  | nil => simp at h
  | cons c cs =>
    have hc : c = '/' := by simpa using h
    subst hc
    show String.mk (cleanChars (cleanChars ('/' :: cs))) = String.mk (cleanChars ('/' :: cs))
    rw [cleanChars_idem_rooted]

/-- Joining onto a rooted current path yields a rooted path. -/
theorem filepathJoin_rooted_head (cur arg : String)
    (hroot : cur.data.head? = some '/') :
    (filepathJoin cur arg).data.head? = some '/' := by
  have hcur : cur.data ≠ [] := by
    intro h; rw [h] at hroot; simp at hroot
  unfold filepathJoin
  by_cases hb : arg.data = []
  · rw [if_neg (by tauto), if_neg hcur, if_pos hb]
    exact filepathClean_rooted_head cur hroot
  · rw [if_neg (by tauto), if_neg hcur, if_neg hb]
    apply filepathClean_rooted_head
    show (cur.data ++ '/' :: arg.data).head? = some '/'
    cases hc : cur.data with
    | nil => exact absurd hc hcur
    | cons c rest =>
      rw [hc] at hroot
      simp only [List.head?_cons, Option.some.injEq] at hroot
      simp [hroot]

example : buildPath "/" "a/../b" = "/b" := by decide
example : buildPath "/x" "../../y" = "/y" := by decide
example : buildPath "/x" "/a//b/./c" = "/a/b/c" := by decide
example : buildPath "/x/y" "" = "/x/y" := by decide

/-! ## Argument parsing: Go `strconv.ParseInt(s, 10, 0)` -/

/-- Go `strconv.ParseInt(s, 10, 0)` on a 64-bit platform, over the character
list, with the error value discarded as `handleREST` does: a syntactically
invalid argument yields 0, an out-of-range one yields the clamped 64-bit
value. -/
def parseIntChars (cs : List Char) : Int :=
  match cs with
  | [] => 0
  | c :: rest =>
    let neg : Bool := c = '-'
    let digits := if c = '+' ∨ c = '-' then rest else c :: rest
    if digits = [] ∨ ¬ digits.all (fun d => '0' ≤ d && d ≤ '9') then 0
    else
      let n : Nat := digits.foldl (fun a d => a * 10 + (d.toNat - 48)) 0
      if neg then
        if n > 2 ^ 63 then -(2 ^ 63) else -(n : Int)
      else
        if n ≥ 2 ^ 63 then 2 ^ 63 - 1 else (n : Int)

/-- Go `strconv.ParseInt(s, 10, 0)` with the error discarded. -/
def parseIntGo (s : String) : Int := parseIntChars s.data

example : parseIntGo "42" = 42 := by decide
example : parseIntGo "-5" = -5 := by decide
example : parseIntGo "" = 0 := by decide
example : parseIntGo "12x" = 0 := by decide
example : parseIntGo "+7" = 7 := by decide

/-! ## Session state: the mutable fields of `FtpConn`

The connection handles, buffered streams, config pointer and driver instance
are abstracted away; the remaining fields are carried verbatim. `dataConn` is
`some id` when a data connection is open, `none` when nil. -/

/-- The per-session mutable state of `FtpConn`. -/
structure Sess where
  user : String
  path : String
  mode : String
  clnt : String
  rename : String
  authd : Bool
  tls : Bool
  offset : Int
  dataConn : Option Nat
  pasvPort : Int
deriving DecidableEq, Repr

/-! ## Command dispatch: `cmdMap` and the `Serve` loop -/

/-- `cmdMap`: command name to its *auth-required* flag, in source order.
The handler function of each entry is abstracted: `serveStep` below receives
the handler table as a parameter, since the auth gate must hold whatever the
handlers do. -/
def cmdMap : List (String × Bool) :=
  [("USER", false), ("PASS", false),
   ("AUTH", false), ("PROT", false), ("PBSZ", false),
   ("CLNT", false), ("FEAT", false), ("SYST", false), ("NOOP", false),
   ("OPTS", false), ("QUIT", false),
   ("SIZE", true), ("STAT", true), ("MDTM", true), ("MFMT", true),
   ("RETR", true), ("STOR", true), ("APPE", true), ("DELE", true),
   ("RNFR", true), ("RNTO", true), ("ALLO", true), ("REST", true),
   ("SITE", true),
   ("CWD", true), ("PWD", true), ("CDUP", true), ("NLST", true),
   ("LIST", true), ("MLSD", true), ("MLST", true), ("MKD", true),
   ("XMKD", true), ("RMD", true), ("XRMD", true),
   ("TYPE", true), ("PASV", true), ("EPSV", true), ("PORT", true)]

/-- Auth-required flag of a command (`cmdMap` lookup). -/
def cmdAuth (c : String) : Option Bool := cmdMap.lookup c

/-- `strings.SplitN(line, " ", 2)`: the first word and, when a space occurs,
the remainder after it. -/
def splitFirstSpace : List Char → List Char × Option (List Char)
  | [] => ([], none)
  | c :: rest =>
    if c = ' ' then ([], some rest)
    else ((c :: (splitFirstSpace rest).1), (splitFirstSpace rest).2)

/-- The HELP reply sent by the `Serve` loop: a 214 block listing the commands.
(Go iterates the map and sorts; the exact ordering is irrelevant to every
claim, so the source-order list is used.) -/
def helpOut : Out :=
  .multi 214 "The following commands are recognized."
    (String.intercalate "\r\n" (cmdMap.map (fun e => " " ++ e.1))) "Help OK."

/-- One iteration of `FtpConn.Serve` on a non-empty input line: split off the
first word, upper-case it, answer HELP inline, reject unknown commands with
500, reject auth-required commands with 530 when not authenticated, and
otherwise dispatch to the handler table. -/
def serveStep (handlers : String → String → Sess → Sess × List Out)
    (st : Sess) (line : String) : Sess × List Out :=
  let words := splitFirstSpace line.data
  let command := String.mk (words.1.map Char.toUpper)
  let arg := String.mk (words.2.getD [])
  if command = "HELP" then (st, [helpOut])
  else
    match cmdAuth command with
    | none => (st, [.line 500 "Unknown command."])
    | some auth =>
      if auth && !st.authd then
        (st, [.line 530 "Please login with USER and PASS."])
      else handlers command arg st

/-- The 28 commands the claim lists as auth-required. -/
def authRequiredCmds : List String :=
  ["SIZE", "STAT", "MDTM", "MFMT", "RETR", "STOR", "APPE", "DELE", "RNFR",
   "RNTO", "ALLO", "REST", "SITE", "CWD", "PWD", "CDUP", "NLST", "LIST",
   "MLSD", "MLST", "MKD", "XMKD", "RMD", "XRMD", "TYPE", "PASV", "EPSV",
   "PORT"]

/-! ## Object-store backend: `MinioDriver.Stat` -/

/-- Object metadata as returned by the store (`minio.ObjectInfo`, the fields
`Stat` reads). `lastModified` is kept abstract as a numeric stamp. -/
structure ObjectInfo where
  key : String
  size : Int
  lastModified : Nat
deriving DecidableEq, Repr

/-- `MinioFileInfo`: entry name, backing object (Go zero value for synthetic
entries) and directory flag. -/
structure MinioFileInfo where
  name : String
  object : ObjectInfo
  isDir : Bool
deriving DecidableEq, Repr

/-- `strings.TrimPrefix` over character lists. -/
def trimPre (s pat : List Char) : List Char :=
  if pat.isPrefixOf s then s.drop pat.length else s

/-- `strings.TrimSuffix` over character lists. -/
def trimSuf (s pat : List Char) : List Char :=
  if pat.isSuffixOf s then s.take (s.length - pat.length) else s

/-- `MinioDriver.miniopath`: the virtual path re-rooted at the user's home. -/
def miniopath (user path : String) : String := filepathJoin user path

/-- `MinioDriver.Stat`, with the remote `StatObject` call abstracted as a
lookup returning `none` on any error. The root `/` short-circuits to a
synthetic directory; a failed lookup also yields a synthetic directory entry
(never an error). -/
def minioStat (user : String) (statObject : String → Option ObjectInfo)
    (path : String) : Except String MinioFileInfo :=
  if path = "/" then .ok ⟨"/", ⟨"", 0, 0⟩, true⟩
  else
    match statObject (miniopath user path) with
    | none => .ok ⟨miniopath user path, ⟨"", 0, 0⟩, true⟩
    | some object =>
      .ok ⟨String.mk (trimSuf (trimPre object.key.data (miniopath user path).data) ['/']),
           object,
           (['/'] : List Char).isSuffixOf object.key.data⟩

/-! ## File metadata as seen by the control engine

`FileInfo` methods used by the handlers, with the modification time carried
pre-formatted (no claim depends on time arithmetic). -/

structure FInfo where
  name : String
  size : Int
  modfmt : String
  isDir : Bool
deriving DecidableEq, Repr

/-- `FtpConn.fileMls`: the MLSD/MLST fact row. -/
def fileMls (fi : FInfo) : String :=
  "Type=" ++ (if fi.isDir then "dir" else "file") ++ ";Size=" ++ toString fi.size
    ++ ";Modify=" ++ fi.modfmt ++ "; " ++ fi.name

/-! ## Handlers -/

/-- `FtpConn.handleREST`: parse the argument (error ignored), store it as the
restart offset, reply 350 quoting the stored value. -/
def handleREST (st : Sess) (arg : String) : Sess × List Out :=
  let off := parseIntGo arg
  ({ st with offset := off },
   [.line 350 ("Restart position accepted (" ++ toString off ++ ").")])

/-- `FtpConn.handleTYPE`. -/
def handleTYPE (st : Sess) (arg : String) : Sess × List Out :=
  if arg = "A" ∨ arg = "a" then
    ({ st with mode := "ASCII" }, [.line 200 "Switching to ASCII mode."])
  else if arg = "I" ∨ arg = "i" then
    ({ st with mode := "BINARY" }, [.line 200 "Switching to Binary mode."])
  else
    ({ st with mode := "" }, [.line 500 "Unrecognised TYPE command."])

/-- `FtpConn.handleMLST`: on a failed stat the handler returns the error with
no reply at all; on success it sends a 250 block. The second component is the
error value the handler returns to the `Serve` loop. -/
def handleMLST (stat : String → Except String FInfo) (st : Sess)
    (arg : String) : List Out × Option String :=
  match stat (buildPath st.path arg) with
  | .error e => ([], some e)
  | .ok fi => ([.multi 250 "File details:" (fileMls fi) "End"], none)

/-- `FtpConn.handleSIZE` (reply part): 550 on stat failure, 213 with the size
otherwise. -/
def handleSIZE (stat : String → Except String FInfo) (st : Sess)
    (arg : String) : List Out × Option String :=
  match stat (buildPath st.path arg) with
  | .error e => ([.line 550 "Could not get file size."], some e)
  | .ok fi => ([.line 213 (toString fi.size)], none)

/-- `FtpConn.handleMDTM` (reply part). -/
def handleMDTM (stat : String → Except String FInfo) (st : Sess)
    (arg : String) : List Out × Option String :=
  match stat (buildPath st.path arg) with
  | .error e => ([.line 550 "Could not get file modification time."], some e)
  | .ok fi => ([.line 213 fi.modfmt], none)

/-- `FtpConn.handleRNTO`, with the optional global `FileBeforeRename` hook and
`driver.Rename` (`true` = success) as parameters. The third component records
every `driver.Rename` invocation (from-path, to-path). The `FileAfterRename`
notification has no effect on session state and is omitted. In the source the
`defer` clearing `fc.rename` is registered only after the hook check, on the
same statement as the `Rename` call. -/
def handleRNTO (hookBeforeRename : Option (String → String → String → Bool))
    (renameOp : String → String → Bool) (st : Sess) (arg : String) :
    Sess × List Out × List (String × String) :=
  if st.rename = "" then (st, [.line 503 "RNFR required first."], [])
  else
    let path := buildPath st.path arg
    let denied := match hookBeforeRename with
      | some hook => !hook st.user st.rename path
      | none => false
    if denied then (st, [.line 550 "Not Allowed."], [])
    else if renameOp st.rename path then
      ({ st with rename := "" }, [.line 250 "Rename successful."],
       [(st.rename, path)])
    else
      ({ st with rename := "" }, [.line 550 "Rename failed."],
       [(st.rename, path)])

/-- `FtpConn.CloseFileTransfer`: closes and clears the data connection; the
reserved passive port is cleared only when a data connection was present. -/
def CloseFileTransfer (st : Sess) : Sess :=
  match st.dataConn with
  | some _ => { st with dataConn := none, pasvPort := 0 }
  | none => st

/-- The deferred cleanup shared by RETR/STOR/APPE:
`fc.offset = 0; fc.CloseFileTransfer()`. -/
def transferCleanup (st : Sess) : Sess :=
  CloseFileTransfer { st with offset := 0 }

/-- Body of `FtpConn.handleRETR` after the hook check: open the file at the
restart offset (`getFile path offset = none` models a `GetFile` error), then
stream it (`netOk` models the `io.Copy` outcome). -/
def retrCore (getFile : String → Int → Option Int) (netOk : Bool)
    (st : Sess) (path arg : String) : Sess × List Out :=
  match getFile path st.offset with
  | none => (st, [.line 550 "Failed to open file."])
  | some size =>
    let opening := .line 150 ("Opening " ++ st.mode ++
      " mode data connection for " ++ arg ++ " (" ++ toString size ++ " bytes).")
    if netOk then (st, [opening, .line 226 "Transfer complete."])
    else (st, [opening, .line 426 "Failure writing network stream."])

/-- `FtpConn.handleRETR` with the deferred cleanup applied on every path. -/
def handleRETR (hookGet : Option (String → String → Bool))
    (getFile : String → Int → Option Int) (netOk : Bool)
    (st : Sess) (arg : String) : Sess × List Out :=
  let path := buildPath st.path arg
  let denied := match hookGet with
    | some hook => !hook st.user path
    | none => false
  let body :=
    if denied then (st, [.line 550 "Not Allowed."])
    else retrCore getFile netOk st path arg
  (transferCleanup body.1, body.2)

/-- Body of `FtpConn.handleSTOR`/`handleAPPE` after any hook check: a nil data
connection is a 550, otherwise stream into `PutFile` (`putOk` models its
outcome). -/
def storCore (putOk : String → Int → Bool) (st : Sess) (path : String) :
    Sess × List Out :=
  match st.dataConn with
  | none => (st, [.line 550 "Failed to open transfer."])
  | some _ =>
    if putOk path st.offset then
      (st, [.line 150 "Ok to send data.", .line 226 "Transfer complete."])
    else
      (st, [.line 150 "Ok to send data.",
            .line 426 "Failure reading network stream."])

/-- `FtpConn.handleSTOR` with the deferred cleanup applied on every path. -/
def handleSTOR (hookPut : Option (String → String → Bool))
    (putOk : String → Int → Bool) (st : Sess) (arg : String) :
    Sess × List Out :=
  let path := buildPath st.path arg
  let denied := match hookPut with
    | some hook => !hook st.user path
    | none => false
  let body :=
    if denied then (st, [.line 550 "Not Allowed."])
    else storCore putOk st path
  (transferCleanup body.1, body.2)

/-- `FtpConn.handleAPPE` (no hooks) with the deferred cleanup. -/
def handleAPPE (putOk : String → Int → Bool) (st : Sess) (arg : String) :
    Sess × List Out :=
  let body := storCore putOk st (buildPath st.path arg)
  (transferCleanup body.1, body.2)

/-! ## Passive mode -/

/-- The bind-retry loop of `FtpConn.pasvListen`. `i` is the iteration index,
`k` the remaining attempts; `draw i` models `rand.Intn(nAttempts)` at
iteration `i` and `bindOk` the outcome of `net.ListenTCP` on a port. Returns
the bound port (or `none` on exhaustion) and the list of attempted ports. -/
def pasvLoop (portStart : Int) (draw : Nat → Nat) (bindOk : Int → Bool) :
    Nat → Nat → Option Int × List Int
  | _, 0 => (none, [])
  | i, k + 1 =>
    let port := portStart + (draw i : Int)
    if bindOk port then (some port, [port])
    else
      let r := pasvLoop portStart draw bindOk (i + 1) k
      (r.1, port :: r.2)

/-- `FtpConn.pasvListen`: up to `PortEnd - PortStart + 1` random bind attempts
within the configured range. -/
def pasvListen (portStart portEnd : Int) (draw : Nat → Nat)
    (bindOk : Int → Bool) : Option Int × List Int :=
  pasvLoop portStart draw bindOk 0 (portEnd - portStart + 1).toNat

/-- The port encoding and reply text of `FtpConn.handlePASV`:
`p1 := port / 256`, `p2 := port - p1*256`. -/
def pasvReplyText (q0 q1 q2 q3 : String) (port : Nat) : String :=
  let p1 := port / 256
  let p2 := port - p1 * 256
  "Entering Passive Mode (" ++ q0 ++ "," ++ q1 ++ "," ++ q2 ++ "," ++ q3 ++
    "," ++ toString p1 ++ "," ++ toString p2 ++ ")."

/-- The `fc.Send(227, ...)` call that closes `FtpConn.handlePASV`: the dotted
tuple text carried under reply code 227. -/
def pasvReply (q0 q1 q2 q3 : String) (port : Nat) : Out :=
  .line 227 (pasvReplyText q0 q1 q2 q3 port)

/-! ## Claim theorems -/

/-- A fresh, unauthenticated session as built by `NewFtpConn`. -/
def sessAnon : Sess := ⟨"", "/", "ASCII", "", "", false, false, 0, none, 0⟩

/-- A logged-in session at the root. -/
def sessAuthd : Sess := ⟨"kftpd", "/", "BINARY", "", "", true, false, 0, none, 0⟩

/-- C1: on an unauthenticated session, every command whose `cmdMap` entry is
auth-required draws `530 Please login with USER and PASS.` from the command
loop, the session state is returned unchanged, and the handler table is never
consulted (the result is the same for every `handlers`). -/
theorem serve_auth_gate (handlers : String → String → Sess → Sess × List Out)
    (st : Sess) (cmd arg : String)
    (hc : cmd ∈ authRequiredCmds) (hauth : st.authd = false) :
    serveStep handlers st (cmd ++ " " ++ arg) =
      (st, [.line 530 "Please login with USER and PASS."]) := by
  obtain ⟨u, p, m, cl, r, a, t, o, d, pp⟩ := st
  have ha : a = false := hauth
  subst ha
  fin_cases hc <;> rfl

/-- C1 witness: `SIZE` on a fresh session is refused with 530 even under a
handler table that would answer everything. -/
theorem serve_auth_gate_witness :
    serveStep (fun _ _ s => (s, [.line 200 "OK"])) sessAnon ("SIZE" ++ " " ++ "a.txt") =
      (sessAnon, [.line 530 "Please login with USER and PASS."]) :=
  serve_auth_gate _ sessAnon "SIZE" "a.txt" (by decide) rfl

/-- C2: for a canonical `/`-rooted current path and any argument, `buildPath`
returns a canonical path beginning with `/`: the cleaned argument when it is
absolute, otherwise the cleaned join of the current path and the argument
(canonical means fixed under `filepathClean`, which collapses `.`, `..` and
duplicate separators, `..` above `/` staying at `/`). -/
theorem buildPath_canonical (cur arg : String)
    (hroot : cur.data.head? = some '/') (hcanon : filepathClean cur = cur) :
    (buildPath cur arg).data.head? = some '/' ∧
    filepathClean (buildPath cur arg) = buildPath cur arg ∧
    buildPath cur arg =
      (if arg.data.head? = some '/' then filepathClean arg
       else filepathClean (filepathJoin cur arg)) ∧
    (arg.data = [] → buildPath cur arg = cur) := by
  refine ⟨?_, ?_, rfl, ?_⟩
  · unfold buildPath
    by_cases ha : arg.data.head? = some '/'
    · rw [if_pos ha]; exact filepathClean_rooted_head arg ha
    · rw [if_neg ha]
      exact filepathClean_rooted_head _ (filepathJoin_rooted_head cur arg hroot)
  · unfold buildPath
    by_cases ha : arg.data.head? = some '/'
    · rw [if_pos ha]; exact filepathClean_idem_rooted arg ha
    · rw [if_neg ha]
      exact filepathClean_idem_rooted _ (filepathJoin_rooted_head cur arg hroot)
  · intro harg
    have hne : ¬ arg.data.head? = some '/' := by rw [harg]; simp
    have hcur : cur.data ≠ [] := by
      intro h; rw [h] at hroot; simp at hroot
    unfold buildPath
    rw [if_neg hne]
    have hj : filepathJoin cur arg = filepathClean cur := by
      unfold filepathJoin
      rw [if_neg (by tauto), if_neg hcur, if_pos harg]
    rw [hj, filepathClean_idem_rooted cur hroot, hcanon]

/-- C2 witness: a relative argument with excess `..` resolved from `/sub`. -/
theorem buildPath_canonical_witness :
    (buildPath "/sub" "a/../../b").data.head? = some '/' ∧
    filepathClean (buildPath "/sub" "a/../../b") = buildPath "/sub" "a/../../b" ∧
    buildPath "/sub" "a/../../b" =
      (if ("a/../../b" : String).data.head? = some '/' then filepathClean "a/../../b"
       else filepathClean (filepathJoin "/sub" "a/../../b")) ∧
    (("a/../../b" : String).data = [] → buildPath "/sub" "a/../../b" = "/sub") :=
  buildPath_canonical "/sub" "a/../../b" (by decide) (by decide)

/-- C3 counterexample: `REST -5` parses successfully and stores a negative
restart offset, so the claimed invariant `restartOffset ≥ 0` fails. -/
theorem rest_negative_counterexample :
    (handleREST sessAuthd "-5").1.offset = -5 ∧
    ¬ (0 ≤ (handleREST sessAuthd "-5").1.offset) := by decide

/-- The value stored by REST is bounded by the 64-bit clamps, not by 0. -/
theorem parseIntGo_bounds (s : String) :
    -(2 ^ 63) ≤ parseIntGo s ∧ parseIntGo s ≤ 2 ^ 63 - 1 := by
  unfold parseIntGo
  match h : s.data with
  | [] => exact ⟨by norm_num [parseIntChars], by norm_num [parseIntChars]⟩
  | c :: rest =>
    simp only [parseIntChars]
    split <;> split <;>
      first
        | (refine ⟨?_, ?_⟩ <;> split <;> split <;> omega)
        | norm_num

/-- C3 amended: after REST the stored offset is the signed 64-bit parse of the
argument — negative arguments store negative offsets, syntactically invalid
ones store 0, out-of-range ones clamp — and the reply quotes the stored
value. -/
theorem handleREST_spec (st : Sess) (arg : String) :
    handleREST st arg =
      ({ st with offset := parseIntGo arg },
       [.line 350 ("Restart position accepted (" ++ toString (parseIntGo arg) ++ ").")]) ∧
    -(2 ^ 63) ≤ (handleREST st arg).1.offset ∧
    (handleREST st arg).1.offset ≤ 2 ^ 63 - 1 :=
  ⟨rfl, (parseIntGo_bounds arg).1, (parseIntGo_bounds arg).2⟩

/-- C4: `MinioDriver.Stat` never propagates a failure: it answers every path
with a `FileInfo`; the root `/` and any key whose lookup fails both produce a
synthetic directory entry. -/
theorem minioStat_spec (user : String) (statObject : String → Option ObjectInfo)
    (path : String) :
    (∃ fi, minioStat user statObject path = .ok fi) ∧
    (path = "/" → minioStat user statObject path = .ok ⟨"/", ⟨"", 0, 0⟩, true⟩) ∧
    (path ≠ "/" → statObject (miniopath user path) = none →
      minioStat user statObject path = .ok ⟨miniopath user path, ⟨"", 0, 0⟩, true⟩) := by
  refine ⟨?_, fun h => by unfold minioStat; rw [if_pos h],
    fun h hso => by unfold minioStat; rw [if_neg h, hso]⟩
  unfold minioStat
  by_cases h : path = "/"
  · rw [if_pos h]; exact ⟨_, rfl⟩
  · rw [if_neg h]
    cases statObject (miniopath user path) <;> exact ⟨_, rfl⟩

/-- C4 witness: an object store failing every lookup still yields synthetic
directory entries for `/` and for a missing key. -/
theorem minioStat_spec_witness :
    (∃ fi, minioStat "kftpd" (fun _ => none) "/x" = .ok fi) ∧
    ("/x" = "/" → minioStat "kftpd" (fun _ => none) "/x" = .ok ⟨"/", ⟨"", 0, 0⟩, true⟩) ∧
    ("/x" ≠ "/" → (fun _ => (none : Option ObjectInfo)) (miniopath "kftpd" "/x") = none →
      minioStat "kftpd" (fun _ => none) "/x" = .ok ⟨miniopath "kftpd" "/x", ⟨"", 0, 0⟩, true⟩) :=
  minioStat_spec "kftpd" (fun _ => none) "/x"

/-- A session holding a pending `renameFrom`. -/
def sessRenaming : Sess := ⟨"u", "/", "BINARY", "", "/a", true, false, 0, none, 0⟩

/-- C5 counterexample: when the registered before-rename hook denies the
attempt, RNTO replies 550 but `renameFrom` is left set (`/a`), because the
`defer` that clears it is only registered after the hook check. -/
theorem rnto_clear_counterexample :
    sessRenaming.rename = "/a" ∧
    (handleRNTO (some fun _ _ _ => false) (fun _ _ => true) sessRenaming "/b").2.1 =
      [.line 550 "Not Allowed."] ∧
    (handleRNTO (some fun _ _ _ => false) (fun _ _ => true) sessRenaming "/b").1.rename
      = "/a" := by decide

/-- C5 amended: RNTO with empty `renameFrom` replies 503, performs no storage
operation and leaves the state unchanged; with a denying hook it replies 550
and also leaves `renameFrom` untouched; otherwise exactly one storage rename
runs, `renameFrom` is cleared, and the reply is 250 on success or 550 on
failure. Hence `renameFrom` ends empty iff it started empty or a storage
rename was attempted. -/
theorem handleRNTO_spec (hook : Option (String → String → String → Bool))
    (renameOp : String → String → Bool) (st : Sess) (arg : String) :
    handleRNTO hook renameOp st arg =
      (if st.rename = "" then (st, [.line 503 "RNFR required first."], [])
       else if (match hook with
                | some h => !h st.user st.rename (buildPath st.path arg)
                | none => false) then
         (st, [.line 550 "Not Allowed."], [])
       else if renameOp st.rename (buildPath st.path arg) then
         ({ st with rename := "" }, [.line 250 "Rename successful."],
          [(st.rename, buildPath st.path arg)])
       else
         ({ st with rename := "" }, [.line 550 "Rename failed."],
          [(st.rename, buildPath st.path arg)])) ∧
    ((handleRNTO hook renameOp st arg).1.rename = "" ↔
      (st.rename = "" ∨ (handleRNTO hook renameOp st arg).2.2 ≠ [])) := by
  refine ⟨rfl, ?_⟩
  by_cases h : st.rename = ""
  · simp [handleRNTO, h]
  · cases hook with
    | none =>
      by_cases hop : renameOp st.rename (buildPath st.path arg) <;>
        simp [handleRNTO, h, hop]
    | some hk =>
      by_cases hd : hk st.user st.rename (buildPath st.path arg)
      · by_cases hop : renameOp st.rename (buildPath st.path arg) <;>
          simp [handleRNTO, h, hd, hop]
      · simp [handleRNTO, h, hd]

/-- Session fields after a RETR/STOR/APPE handler returns: offset reset, data
connection nil, passive port cleared exactly when a data connection was open,
everything else untouched. -/
def cleanupPost (st stp : Sess) : Prop :=
  stp.offset = 0 ∧ stp.dataConn = none ∧
  stp.pasvPort = (if st.dataConn = none then st.pasvPort else 0) ∧
  stp.user = st.user ∧ stp.path = st.path ∧ stp.mode = st.mode ∧
  stp.clnt = st.clnt ∧ stp.rename = st.rename ∧ stp.authd = st.authd ∧
  stp.tls = st.tls

theorem retrCore_fst (getFile : String → Int → Option Int) (netOk : Bool)
    (st : Sess) (path arg : String) : (retrCore getFile netOk st path arg).1 = st := by
  unfold retrCore
  split
  · rfl
  · split <;> rfl

theorem storCore_fst (putOk : String → Int → Bool) (st : Sess) (path : String) :
    (storCore putOk st path).1 = st := by
  unfold storCore
  split
  · rfl
  · split <;> rfl

theorem cleanupPost_transferCleanup (st : Sess) :
    cleanupPost st (transferCleanup st) := by
  unfold cleanupPost transferCleanup CloseFileTransfer
  cases h : st.dataConn with
  | none => simp [h]
  | some c => simp [h]

/-- C6 counterexample: with the data connection already nil (as after a PASV
accept timeout) and a reserved passive port, STOR's cleanup leaves `pasvPort`
uncleared, contradicting "the reserved passive port field is cleared to 0". -/
def sessNoData : Sess := ⟨"u", "/", "BINARY", "", "", true, false, 5, none, 21000⟩

theorem transfer_pasvPort_counterexample :
    (handleSTOR none (fun _ _ => true) sessNoData "f").1.pasvPort = 21000 ∧
    ¬ (handleSTOR none (fun _ _ => true) sessNoData "f").1.pasvPort = 0 := by decide

/-- C6 amended: whatever the hooks, driver and network outcomes, after RETR,
STOR or APPE the restart offset is 0 and the data connection is nil; the
passive port is cleared to 0 when a data connection was open at cleanup and
retains its prior value otherwise; all other session fields are unchanged. -/
theorem transfer_cleanup_spec (hookGet hookPut : Option (String → String → Bool))
    (getFile : String → Int → Option Int) (putOk : String → Int → Bool)
    (netOk : Bool) (st : Sess) (arg : String) :
    cleanupPost st (handleRETR hookGet getFile netOk st arg).1 ∧
    cleanupPost st (handleSTOR hookPut putOk st arg).1 ∧
    cleanupPost st (handleAPPE putOk st arg).1 := by
  have hretr : (handleRETR hookGet getFile netOk st arg).1 = transferCleanup st := by
    unfold handleRETR
    cases hookGet with
    | none => simp [retrCore_fst]
    | some hook =>
      by_cases h : hook st.user (buildPath st.path arg)
      · simp [h, retrCore_fst]
      · simp [h]
  have hstor : (handleSTOR hookPut putOk st arg).1 = transferCleanup st := by
    unfold handleSTOR
    cases hookPut with
    | none => simp [storCore_fst]
    | some hook =>
      by_cases h : hook st.user (buildPath st.path arg)
      · simp [h, storCore_fst]
      · simp [h]
  have happe : (handleAPPE putOk st arg).1 = transferCleanup st := by
    unfold handleAPPE
    simp [storCore_fst]
  rw [hretr, hstor, happe]
  exact ⟨cleanupPost_transferCleanup st, cleanupPost_transferCleanup st,
    cleanupPost_transferCleanup st⟩

/-- The bind loop of `pasvListen`: with every random draw below `n`, a run
with `k` remaining attempts makes at most `k` bind attempts, each inside the
configured window, and returns no listener when every bind fails. -/
theorem pasvLoop_spec (portStart : Int) (draw : Nat → Nat) (bindOk : Int → Bool)
    (n : Nat) (hdraw : ∀ i, draw i < n) :
    ∀ (k i : Nat),
      (pasvLoop portStart draw bindOk i k).2.length ≤ k ∧
      (∀ p ∈ (pasvLoop portStart draw bindOk i k).2,
        portStart ≤ p ∧ p < portStart + n) ∧
      ((∀ j, bindOk (portStart + (draw j : Int)) = false) →
        (pasvLoop portStart draw bindOk i k).1 = none) := by
  intro k
  induction k with
  | zero =>
    intro i
    exact ⟨by simp [pasvLoop], by simp [pasvLoop], fun _ => rfl⟩
  | succ k ih =>
    intro i
    have hlt : (draw i : Int) < (n : Int) := by exact_mod_cast hdraw i
    have hnn : (0 : Int) ≤ (draw i : Int) := Int.ofNat_nonneg _
    by_cases hb : bindOk (portStart + (draw i : Int)) = true
    · refine ⟨by simp [pasvLoop, hb], ?_, ?_⟩
      · intro p hp
        simp [pasvLoop, hb] at hp
        subst hp
        omega
      · intro hall
        rw [hall i] at hb
        exact absurd hb (by simp)
    · have hb' : bindOk (portStart + (draw i : Int)) = false := by
        simpa using hb
      obtain ⟨ih1, ih2, ih3⟩ := ih (i + 1)
      refine ⟨?_, ?_, ?_⟩
      · simp [pasvLoop, hb']
        omega
      · intro p hp
        simp [pasvLoop, hb'] at hp
        rcases hp with rfl | hp
        · omega
        · exact ih2 p hp
      · intro hall
        simp [pasvLoop, hb']
        exact ih3 hall

/-- C7: with `portStart ≤ portEnd` and uniform draws inside the range, the
passive listener acquisition makes at most `portEnd - portStart + 1` bind
attempts, each on a port within `[portStart, portEnd]`, and when every
attempt fails to bind it returns no listener (an error). Termination is by
construction: the loop is structurally recursive on the remaining attempts. -/
theorem pasvListen_spec (portStart portEnd : Int) (draw : Nat → Nat)
    (bindOk : Int → Bool) (hrange : portStart ≤ portEnd)
    (hdraw : ∀ i, draw i < (portEnd - portStart + 1).toNat) :
    (pasvListen portStart portEnd draw bindOk).2.length ≤
      (portEnd - portStart + 1).toNat ∧
    (∀ p ∈ (pasvListen portStart portEnd draw bindOk).2,
      portStart ≤ p ∧ p ≤ portEnd) ∧
    ((∀ j, bindOk (portStart + (draw j : Int)) = false) →
      (pasvListen portStart portEnd draw bindOk).1 = none) := by
  unfold pasvListen
  obtain ⟨h1, h2, h3⟩ := pasvLoop_spec portStart draw bindOk
    ((portEnd - portStart + 1).toNat) hdraw ((portEnd - portStart + 1).toNat) 0
  refine ⟨h1, ?_, h3⟩
  intro p hp
  obtain ⟨hp1, hp2⟩ := h2 p hp
  have ht : (((portEnd - portStart + 1).toNat : Nat) : Int) = portEnd - portStart + 1 :=
    Int.toNat_of_nonneg (by omega)
  omega

/-- C7 witness: a three-port range where every bind fails exhausts and
returns no listener. -/
theorem pasvListen_spec_witness :
    (pasvListen 21000 21002 (fun i => i % 3) (fun _ => false)).1 = none :=
  (pasvListen_spec 21000 21002 (fun i => i % 3) (fun _ => false) (by norm_num)
    (fun i => by simp only []; omega)).2.2 (fun j => rfl)

/-- C8: for every listener port in `[0, 65535]`, the PASV encoding
`p1 = port / 256`, `p2 = port - p1*256` reconstructs the port, keeps both
halves in `[0, 255]`, and the handler's reply is reply code 227 with the text
`Entering Passive Mode (h1,h2,h3,h4,p1,p2).` carrying those two numbers. -/
theorem pasv_port_encoding (q0 q1 q2 q3 : String) (port : Nat)
    (hport : port ≤ 65535) :
    (port / 256) * 256 + (port - (port / 256) * 256) = port ∧
    port / 256 ≤ 255 ∧ port - (port / 256) * 256 ≤ 255 ∧
    pasvReply q0 q1 q2 q3 port =
      .line 227 ("Entering Passive Mode (" ++ q0 ++ "," ++ q1 ++ "," ++ q2 ++
        "," ++ q3 ++ "," ++ toString (port / 256) ++ "," ++
        toString (port - (port / 256) * 256) ++ ").") := by
  have hmod := Nat.div_add_mod port 256
  have hlt : port % 256 < 256 := Nat.mod_lt _ (by norm_num)
  refine ⟨by omega, by omega, by omega, rfl⟩

/-- C8 witness: port 21001 encodes as (82, 9) under a 227 reply. -/
theorem pasv_port_encoding_witness :
    (21001 / 256) * 256 + (21001 - (21001 / 256) * 256) = 21001 ∧
    21001 / 256 ≤ 255 ∧ 21001 - (21001 / 256) * 256 ≤ 255 ∧
    pasvReply "127" "0" "0" "1" 21001 =
      .line 227 ("Entering Passive Mode (" ++ "127" ++ "," ++ "0" ++ "," ++
        "0" ++ "," ++ "1" ++ "," ++ toString (21001 / 256) ++ "," ++
        toString (21001 - (21001 / 256) * 256) ++ ").") :=
  pasv_port_encoding "127" "0" "0" "1" 21001 (by norm_num)

/-- C9: a TYPE argument outside `A/a/I/i` draws a 500 reply and resets the
transfer mode to the empty string, discarding the previously selected mode. -/
theorem handleTYPE_default (st : Sess) (arg : String)
    (h : arg ≠ "A" ∧ arg ≠ "a" ∧ arg ≠ "I" ∧ arg ≠ "i") :
    handleTYPE st arg =
      ({ st with mode := "" }, [.line 500 "Unrecognised TYPE command."]) := by
  unfold handleTYPE
  rw [if_neg (by tauto), if_neg (by tauto)]

/-- C9 witness: `TYPE L` on a session in BINARY mode wipes the mode. -/
theorem handleTYPE_default_witness :
    handleTYPE sessAuthd "L" =
      ({ sessAuthd with mode := "" }, [.line 500 "Unrecognised TYPE command."]) :=
  handleTYPE_default sessAuthd "L" (by decide)

/-- C10: when the stat of the resolved path fails, MLST returns the error to
the command loop with no reply line at all, while SIZE and MDTM — the other
stat-guarded file commands — reply 550 on the same failure. -/
theorem handleMLST_silent (stat : String → Except String FInfo) (st : Sess)
    (arg : String) (e : String)
    (h : stat (buildPath st.path arg) = .error e) :
    handleMLST stat st arg = ([], some e) ∧
    handleSIZE stat st arg = ([.line 550 "Could not get file size."], some e) ∧
    handleMDTM stat st arg =
      ([.line 550 "Could not get file modification time."], some e) := by
  unfold handleMLST handleSIZE handleMDTM
  rw [h]
  exact ⟨rfl, rfl, rfl⟩

/-- C10 witness: a store that fails every stat. -/
theorem handleMLST_silent_witness :
    handleMLST (fun _ => .error "no such file") sessAuthd "missing" = ([], some "no such file") ∧
    handleSIZE (fun _ => .error "no such file") sessAuthd "missing" =
      ([.line 550 "Could not get file size."], some "no such file") ∧
    handleMDTM (fun _ => .error "no such file") sessAuthd "missing" =
      ([.line 550 "Could not get file modification time."], some "no such file") :=
  handleMLST_silent (fun _ => .error "no such file") sessAuthd "missing" "no such file" rfl

end KFtpd
